import Mathlib

/-!
Verification of the self-storage frontend's data-access layer and admin
dashboard derived-view logic.

Shallow embedding conventions:
* Timestamps (`Date.getTime()` values) are modelled as integers
  (milliseconds); DTO date strings are modelled already parsed.
  A `valid_until` that is absent / empty / unparseable is `none`.
* Prices are modelled as exact integers.
* `localStorage.getItem("access_token")` is modelled as an
  `Option String` parameter (`none` = no token stored).
* The build-time `VITE_API_BASE_URL` is an `Option String` parameter.
* Each API-client operation is a pure function of (config, token, inputs,
  backend response) returning the list of HTTP requests it issued together
  with its result (`Except` error-message success).  JavaScript evaluates a
  `fetch` call's arguments (including the header object, hence
  `getAuthHeaders()`) before the call itself, so a throw while building
  headers means the request list stays empty.
* JSON decoding of successful responses is outside the model: a successful
  operation returns the raw response body.
-/

namespace SelfStorage

/-- Admin-shape booking DTO (interface `AdminBooking` in `src/api.ts`,
which extends `BookingPublic` with `user_email?`, `box_name?`, `is_active?`). -/
structure AdminBooking where
  id : String
  user_name : String
  box_id : String
  access_code : Option String
  created_at : Int
  valid_until : Option Int
  pricing_mode : Option String
  unit_label : Option String
  billed_units : Option Int
  price_for_period : Option Int
  user_email : Option String
  box_name : Option String
  is_active : Option Bool
deriving DecidableEq, Repr

inductive HttpMethod
  | get
  | post
  | delete
deriving DecidableEq, Repr

structure HttpRequest where
  url : String
  method : HttpMethod
  headers : List (String × String)
  body : Option String
deriving DecidableEq, Repr

structure HttpResponse where
  status : Nat
  body : String
deriving DecidableEq, Repr

/-- `Response.ok`: status in the 2xx range. -/
def HttpResponse.ok (r : HttpResponse) : Bool :=
  decide (200 ≤ r.status) && decide (r.status < 300)

/-- `text.slice(0, n)`: the prefix of at most `n` characters. -/
def strTake (s : String) (n : Nat) : String :=
  String.mk (s.data.take n)

/-- Message of the error thrown by `getAuthHeaders` when no token is stored. -/
def authRequiredMsg : String := "Kein Token gefunden. Bitte erneut einloggen."

/-- Message of the error thrown when `VITE_API_BASE_URL` is not configured. -/
def configErrorMsg : String :=
  "API-Basis-URL ist nicht konfiguriert (VITE_API_BASE_URL)."

/-- `txt.slice(0, n) || "Unbekannter Fehler"`: the truncated response body
used in customer-operation error messages, with a fallback for an empty
truncation. -/
def truncatedBody (body : String) (n : Nat) : String :=
  if strTake body n = "" then "Unbekannter Fehler" else strTake body n

/-- `getAuthHeaders` in `src/api.ts`: reads the token from local storage and
throws when it is absent, otherwise yields the bearer header. -/
def getAuthHeaders (token : Option String) :
    Except String (List (String × String)) :=
  match token with
  | none => .error authRequiredMsg
  | some t => .ok [("Authorization", "Bearer " ++ t)]

/-- `getOptionalAuthHeaders` in `src/api.ts`: bearer header if a token is
stored, empty headers otherwise; never throws. -/
def getOptionalAuthHeaders (token : Option String) : List (String × String) :=
  match token with
  | none => []
  | some t => [("Authorization", "Bearer " ++ t)]

/-- Outcome of one API-client operation: the HTTP requests issued and the
result (error message, or raw response body on success). -/
abbrev ApiOutcome := List HttpRequest × Except String String

/-- `getMe` in `src/api.ts` (`GET /auth/me`, auth required). -/
def getMe (cfg token : Option String) (resp : HttpResponse) : ApiOutcome :=
  match cfg with
  | none => ([], .error configErrorMsg)
  | some base =>
    match getAuthHeaders token with
    | .error e => ([], .error e)
    | .ok auth =>
      ([{ url := base ++ "/auth/me", method := .get,
          headers := auth ++ [("Accept", "application/json")], body := none }],
       if resp.ok then .ok resp.body
       else .error ("auth/me error (" ++ toString resp.status ++ "): " ++
         truncatedBody resp.body 200))

/-- Query URL built by `getAvailableBoxes` via `URL`/`searchParams`. -/
def availableBoxesUrl (base : String) (startInMinutes durationMinutes : Int) :
    String :=
  base ++ "/boxes/available?start_in_minutes=" ++ toString startInMinutes ++
    "&duration_minutes=" ++ toString durationMinutes

/-- `getAvailableBoxes` in `src/api.ts` (`GET /boxes/available`, auth
optional via `getOptionalAuthHeaders`). -/
def getAvailableBoxes (cfg token : Option String)
    (startInMinutes durationMinutes : Int) (resp : HttpResponse) : ApiOutcome :=
  match cfg with
  | none => ([], .error configErrorMsg)
  | some base =>
    ([{ url := availableBoxesUrl base startInMinutes durationMinutes,
        method := .get, headers := getOptionalAuthHeaders token, body := none }],
     if resp.ok then .ok resp.body
     else .error ("API error (" ++ toString resp.status ++ "): " ++
       truncatedBody resp.body 200))

/-- Request body serialized by `createMyBooking`
(`JSON.stringify` of `{ user_name, box_id, duration_minutes }`). -/
def createMyBookingBody (userName boxId : String) (durationMinutes : Int) :
    String :=
  "\x7b\"user_name\":\"" ++ userName ++ "\",\"box_id\":\"" ++ boxId ++
    "\",\"duration_minutes\":" ++ toString durationMinutes ++ "\x7d"

/-- `createMyBooking` in `src/api.ts` (`POST /bookings/me`, auth required;
default user name "Webkunde"). -/
def createMyBooking (cfg token : Option String) (boxId : String)
    (durationMinutes : Int) (userName : Option String) (resp : HttpResponse) :
    ApiOutcome :=
  match cfg with
  | none => ([], .error configErrorMsg)
  | some base =>
    match getAuthHeaders token with
    | .error e => ([], .error e)
    | .ok auth =>
      ([{ url := base ++ "/bookings/me", method := .post,
          headers := ("Content-Type", "application/json") :: auth,
          body := some (createMyBookingBody (userName.getD "Webkunde") boxId
            durationMinutes) }],
       if resp.ok then .ok resp.body
       else .error ("Booking API error: " ++ toString resp.status ++ " - " ++
         strTake resp.body 300))

/-- `listBookingsAdmin` in `src/api.ts` (`GET /bookings/`, auth required).
Note: its error message embeds the response body without truncation. -/
def listBookingsAdmin (cfg token : Option String) (resp : HttpResponse) :
    ApiOutcome :=
  match cfg with
  | none => ([], .error configErrorMsg)
  | some base =>
    match getAuthHeaders token with
    | .error e => ([], .error e)
    | .ok auth =>
      ([{ url := base ++ "/bookings/", method := .get,
          headers := ("Accept", "application/json") :: auth, body := none }],
       if resp.ok then .ok resp.body
       else .error ("Admin bookings error: " ++ toString resp.status ++ " - " ++
         resp.body))

/-- Parameters of `createBookingAdmin` (`CreateBookingAdminParams`). -/
structure CreateBookingAdminParams where
  user_email : String
  box_id : String
  duration_minutes : Int
  user_name : Option String
deriving DecidableEq, Repr

/-- `JSON.stringify` of the params object literal built by the admin
dashboard (`{ user_email, user_name, box_id, duration_minutes }`, with an
undefined `user_name` omitted). -/
def createBookingAdminBody (p : CreateBookingAdminParams) : String :=
  "\x7b\"user_email\":\"" ++ p.user_email ++ "\"" ++
    (match p.user_name with
     | none => ""
     | some n => ",\"user_name\":\"" ++ n ++ "\"") ++
    ",\"box_id\":\"" ++ p.box_id ++ "\",\"duration_minutes\":" ++
    toString p.duration_minutes ++ "\x7d"

/-- `createBookingAdmin` in `src/api.ts` (`POST /bookings/`, auth required).
Note: its error message embeds the response body without truncation. -/
def createBookingAdmin (cfg token : Option String)
    (p : CreateBookingAdminParams) (resp : HttpResponse) : ApiOutcome :=
  match cfg with
  | none => ([], .error configErrorMsg)
  | some base =>
    match getAuthHeaders token with
    | .error e => ([], .error e)
    | .ok auth =>
      ([{ url := base ++ "/bookings/", method := .post,
          headers := ("Content-Type", "application/json") ::
            ("Accept", "application/json") :: auth,
          body := some (createBookingAdminBody p) }],
       if resp.ok then .ok resp.body
       else .error ("Admin create booking error: " ++ toString resp.status ++
         " - " ++ resp.body))

/-- `cancelBookingAdmin` in `src/api.ts` (`DELETE /bookings/{id}`, auth
required).  Note: its error message embeds the response body without
truncation, and no status (404/403) is special-cased. -/
def cancelBookingAdmin (cfg token : Option String) (bookingId : String)
    (resp : HttpResponse) : List HttpRequest × Except String Unit :=
  match cfg with
  | none => ([], .error configErrorMsg)
  | some base =>
    match getAuthHeaders token with
    | .error e => ([], .error e)
    | .ok auth =>
      ([{ url := base ++ "/bookings/" ++ bookingId, method := .delete,
          headers := auth, body := none }],
       if resp.ok then .ok ()
       else .error ("Booking cancel error: " ++ toString resp.status ++ " - " ++
         resp.body))

/-! ### Admin dashboard (`src/pages/AdminDashboardPage.tsx`) -/

/-- `isActive` helper of the admin dashboard: a booking counts as active
exactly when its `valid_until` is present (truthy) and lies strictly after
`now`.  The DTO's `is_active` field is not consulted. -/
def isActive (now : Int) (b : AdminBooking) : Bool :=
  match b.valid_until with
  | none => false
  | some endTime => decide (now < endTime)

inductive StatusFilter
  | all
  | active
  | expired
deriving DecidableEq, Repr

/-- The status-filter step of `filteredAndSortedBookings`. -/
def applyStatusFilter (sf : StatusFilter) (now : Int)
    (l : List AdminBooking) : List AdminBooking :=
  match sf with
  | .all => l
  | .active => l.filter (fun b => isActive now b)
  | .expired => l.filter (fun b => !isActive now b)

/-- `hay.includes(needle)` on strings (substring test). -/
def strContainsSub (hay needle : String) : Bool :=
  (List.range (hay.data.length + 1)).any
    (fun i => needle.data.isPrefixOf (hay.data.drop i))

/-- One booking field matched by the free-text search: lowercase substring
test, absent fields never match. -/
def fieldMatches (q : String) (f : Option String) : Bool :=
  match f with
  | none => false
  | some s => strContainsSub s.toLower q

/-- The search predicate of `filteredAndSortedBookings` (fields
`user_email`, `user_name`, `box_id`, `box_name`, `access_code`). -/
def matchesSearch (q : String) (b : AdminBooking) : Bool :=
  [b.user_email, some b.user_name, some b.box_id, b.box_name,
    b.access_code].any (fieldMatches q)

/-- The search-filter step: applied only for a non-blank trimmed term. -/
def applySearchFilter (searchTerm : String) (l : List AdminBooking) :
    List AdminBooking :=
  if searchTerm.trim = "" then l
  else l.filter (matchesSearch (searchTerm.trim.toLower))

inductive SortKey
  | created_at
  | valid_until
  | box
  | email
  | price
deriving DecidableEq, Repr

inductive SortDir
  | asc
  | desc
deriving DecidableEq, Repr

/-- Sort key for `case "box"`: `(box_id ?? "") + (box_name ?? "")`
(`box_id` is a required field). -/
def boxKey (b : AdminBooking) : String := b.box_id ++ b.box_name.getD ""

/-- Sort key for `case "email"`: `(user_email ?? user_name ?? "").toLowerCase()`
(`user_name` is a required field). -/
def emailKey (b : AdminBooking) : String := (b.user_email.getD b.user_name).toLower

/-- Sort key for `case "price"`: `price_for_period ?? 0`. -/
def priceKey (b : AdminBooking) : Int := b.price_for_period.getD 0

/-- Strict comparison `av < bv` of the selected sort-key values.  For
`valid_until` a missing value parses to `NaN`, whose comparisons are all
false — hence the `none` cases yield `false`. -/
def keyIsLt : SortKey → AdminBooking → AdminBooking → Bool
  | .created_at, a, b => decide (a.created_at < b.created_at)
  | .valid_until, a, b =>
    match a.valid_until, b.valid_until with
    | some x, some y => decide (x < y)
    | _, _ => false
  | .box, a, b => decide (boxKey a < boxKey b)
  | .email, a, b => decide (emailKey a < emailKey b)
  | .price, a, b => decide (priceKey a < priceKey b)

/-- The comparator passed to `list.sort` by the dashboard: `-1`/`1`/`0`
with the sign flipped by the sort direction. -/
def bookingCompare (k : SortKey) (d : SortDir) (a b : AdminBooking) : Int :=
  if keyIsLt k a b then (match d with | .asc => -1 | .desc => 1)
  else if keyIsLt k b a then (match d with | .asc => 1 | .desc => -1)
  else 0

/-- The non-strict order induced by the comparator (`compare(a,b) <= 0`):
for a consistent comparator, ECMAScript `Array.prototype.sort` produces the
unique stable order with respect to this relation. -/
def bookingLe (k : SortKey) (d : SortDir) (a b : AdminBooking) : Prop :=
  bookingCompare k d a b ≤ 0

instance (k : SortKey) (d : SortDir) : DecidableRel (bookingLe k d) :=
  fun a b => inferInstanceAs (Decidable (bookingCompare k d a b ≤ 0))

/-- The sort step of `filteredAndSortedBookings`: the stable sort determined
by the comparator (`Array.prototype.sort` is required to be stable). -/
def sortBookings (k : SortKey) (d : SortDir) (l : List AdminBooking) :
    List AdminBooking :=
  List.insertionSort (bookingLe k d) l

/-- The full `filteredAndSortedBookings` memo: status filter, then search
filter, then sort. -/
def filteredAndSortedBookings (now : Int) (searchTerm : String)
    (sf : StatusFilter) (k : SortKey) (d : SortDir) (l : List AdminBooking) :
    List AdminBooking :=
  sortBookings k d (applySearchFilter searchTerm (applyStatusFilter sf now l))

/-- The KPI record computed by the `stats` memo. -/
structure DashboardStats where
  total : Nat
  active : Nat
  expired : Nat
  todayCount : Nat
  revenueActive : Int
deriving DecidableEq, Repr

/-- The `stats` memo of the dashboard.  The UI filter/sort parameters are in
scope in the component but unused: the counters are computed from the raw
`bookings` list and the clock only (`useMemo` deps `[bookings, now]`).
`todayStart`/`todayEnd` are the bounds of the current local calendar day. -/
def dashboardStats (searchTerm : String) (sf : StatusFilter) (k : SortKey)
    (d : SortDir) (now todayStart todayEnd : Int) (bookings : List AdminBooking) :
    DashboardStats :=
  { total := bookings.length
    active := (bookings.filter (fun b => isActive now b)).length
    expired := bookings.length - (bookings.filter (fun b => isActive now b)).length
    todayCount := (bookings.filter (fun b =>
      decide (todayStart ≤ b.created_at) && decide (b.created_at ≤ todayEnd))).length
    revenueActive := (bookings.filter (fun b =>
      isActive now b && b.price_for_period.isSome)).foldl
      (fun sum b => sum + b.price_for_period.getD 0) 0 }

/-- The status cell written by the CSV export for one row. -/
def csvStatus (now : Int) (b : AdminBooking) : String :=
  if isActive now b then "active" else "expired"

/-- `handleCancelBooking`: on API success the booking is filtered out of the
in-memory list; on failure the list is untouched. -/
def handleCancelBooking (bookingId : String) (apiResult : Except String Unit)
    (prev : List AdminBooking) : List AdminBooking :=
  match apiResult with
  | .ok _ => prev.filter (fun b => !(b.id == bookingId))
  | .error _ => prev

/-- The cancel flow as the admin dashboard runs it: call
`cancelBookingAdmin`, then update the list via `handleCancelBooking`; a
failure's message is surfaced through `alert(err.message)`. -/
def adminCancelFlow (cfg token : Option String) (bookingId : String)
    (resp : HttpResponse) (prev : List AdminBooking) :
    List AdminBooking × Option String :=
  match (cancelBookingAdmin cfg token bookingId resp).2 with
  | .ok _ => (handleCancelBooking bookingId (.ok ()) prev, none)
  | .error e => (handleCancelBooking bookingId (.error e) prev, some e)

/-! ### Shared helper lemmas and sample data -/

theorem string_data_append (s t : String) : (s ++ t).data = s.data ++ t.data := by
  cases s; cases t; rfl

theorem apiError_ne_authRequired (x : String) :
    ("API error (" ++ x) ≠ authRequiredMsg := by
  intro h
  have hd : ("API error (" ++ x).data.head? = authRequiredMsg.data.head? := by
    rw [h]
  have h1 : ("API error (" ++ x).data.head? = some 'A' := rfl
  rw [h1] at hd
  exact absurd hd (by decide)

/-- Sample booking used to instantiate theorems with hypotheses. -/
def sampleBooking (i : String) (created : Int) (vu : Option Int)
    (price : Option Int) (act : Option Bool) : AdminBooking :=
  { id := i, user_name := "user", box_id := "BOX-01", access_code := none,
    created_at := created, valid_until := vu, pricing_mode := none,
    unit_label := none, billed_units := none, price_for_period := price,
    user_email := none, box_name := none, is_active := act }

/-! ### C1: credential-requiring operations fail fast without a token -/

/-- C1: with the base URL configured but no token in local storage, each of
`getMe`, `createMyBooking`, `listBookingsAdmin`, `createBookingAdmin` and
`cancelBookingAdmin` throws the local authentication-required error and
issues zero HTTP requests, whatever the backend would have answered. -/
theorem credential_ops_failFast_without_token (base : String)
    (resp : HttpResponse) (boxId : String) (durationMinutes : Int)
    (userName : Option String) (p : CreateBookingAdminParams)
    (bookingId : String) :
    getMe (some base) none resp = ([], .error authRequiredMsg) ∧
    createMyBooking (some base) none boxId durationMinutes userName resp
      = ([], .error authRequiredMsg) ∧
    listBookingsAdmin (some base) none resp = ([], .error authRequiredMsg) ∧
    createBookingAdmin (some base) none p resp
      = ([], .error authRequiredMsg) ∧
    cancelBookingAdmin (some base) none bookingId resp
      = ([], .error authRequiredMsg) :=
  ⟨rfl, rfl, rfl, rfl, rfl⟩

/-! ### C5: the active and expired status filters partition the list -/

/-- C5: at any fixed evaluation instant, the "active" filter and the
"expired" filter select disjoint sublists whose union (with multiplicity)
is exactly the input list. -/
theorem statusFilter_partition (now : Int) (l : List AdminBooking) :
    (∀ b, b ∈ applyStatusFilter .active now l →
      b ∈ applyStatusFilter .expired now l → False) ∧
    (∀ b, b ∈ l ↔ b ∈ applyStatusFilter .active now l ∨
      b ∈ applyStatusFilter .expired now l) ∧
    List.Perm
      (applyStatusFilter .active now l ++ applyStatusFilter .expired now l) l := by
  refine ⟨?_, ?_, ?_⟩
  · intro b hba hbe
    simp only [applyStatusFilter, List.mem_filter] at hba hbe
    rw [hba.2] at hbe
    exact absurd hbe.2 (by decide)
  · intro b
    simp only [applyStatusFilter, List.mem_filter]
    constructor
    · intro hb
      cases hact : isActive now b
      · exact Or.inr ⟨hb, by simp [hact]⟩
      · exact Or.inl ⟨hb, by simp [hact]⟩
    · rintro (h | h) <;> exact h.1
  · exact List.filter_append_perm (fun b => isActive now b) l

/-- C5 witness: concrete instantiation of the partition statement. -/
theorem statusFilter_partition_witness :
    sampleBooking "W5" 0 (some 10) none none ∈
      applyStatusFilter .active 5 [sampleBooking "W5" 0 (some 10) none none] ∨
    sampleBooking "W5" 0 (some 10) none none ∈
      applyStatusFilter .expired 5 [sampleBooking "W5" 0 (some 10) none none] :=
  ((statusFilter_partition 5 [sampleBooking "W5" 0 (some 10) none none]).2.1
    (sampleBooking "W5" 0 (some 10) none none)).mp (by decide)

/-! ### C7: fetchAvailableUnits attaches the bearer header exactly when a
token is stored, and never fails locally for its absence -/

/-- C7: `getAvailableBoxes` issues exactly one request; with a stored token
the request carries the bearer header, without one it carries no headers;
URL, method and body are identical in both cases; the operation's result is
independent of the token and is never the local authentication-required
error. -/
theorem availableUnits_optionalAuth (base tok : String) (s dm : Int)
    (resp : HttpResponse) :
    (∀ t : Option String, (getAvailableBoxes (some base) t s dm resp).2
      = (getAvailableBoxes (some base) none s dm resp).2) ∧
    (getAvailableBoxes (some base) none s dm resp).1
      = [{ url := availableBoxesUrl base s dm, method := .get,
           headers := [], body := none }] ∧
    (getAvailableBoxes (some base) (some tok) s dm resp).1
      = [{ url := availableBoxesUrl base s dm, method := .get,
           headers := [("Authorization", "Bearer " ++ tok)], body := none }] ∧
    (∀ t : Option String,
      (getAvailableBoxes (some base) t s dm resp).2 ≠ .error authRequiredMsg) := by
  refine ⟨?_, rfl, rfl, ?_⟩
  · intro t; cases t <;> rfl
  · intro t
    have hres : (getAvailableBoxes (some base) t s dm resp).2
        = (if resp.ok then .ok resp.body
           else .error ("API error (" ++ toString resp.status ++ "): " ++
             truncatedBody resp.body 200)) := rfl
    rw [hres]
    cases resp.ok
    · simp only [if_neg Bool.false_ne_true]
      intro h
      have hmsg := Except.error.inj h
      exact apiError_ne_authRequired
        (toString resp.status ++ "): " ++ truncatedBody resp.body 200)
        (by rw [← hmsg]; simp [String.append_assoc])
    · simp

/-- C7 witness: concrete instantiation showing the result with a token
equals the result without one, and is not the auth-required error. -/
theorem availableUnits_optionalAuth_witness :
    (getAvailableBoxes (some "b") (some "t") 0 60
      { status := 200, body := "[]" }).2
      = (getAvailableBoxes (some "b") none 0 60
        { status := 200, body := "[]" }).2 ∧
    (getAvailableBoxes (some "b") (some "t") 0 60
      { status := 200, body := "[]" }).2 ≠ .error authRequiredMsg :=
  ⟨(availableUnits_optionalAuth "b" "t" 0 60 { status := 200, body := "[]" }).1
    (some "t"),
   (availableUnits_optionalAuth "b" "t" 0 60
     { status := 200, body := "[]" }).2.2.2 (some "t")⟩

/-! ### C9: successful cancellation removes exactly the bookings with the
cancelled id, preserving order and all other entries -/

/-- C9: after a successful cancel call, the new list is a sublist of the
old one (relative order preserved), contains no booking with the cancelled
id, and keeps every booking with a different id with unchanged
multiplicity. -/
theorem cancelBooking_success_removes (bookingId : String)
    (prev : List AdminBooking) :
    (handleCancelBooking bookingId (.ok ()) prev).Sublist prev ∧
    (∀ b, b ∈ handleCancelBooking bookingId (.ok ()) prev →
      b.id ≠ bookingId) ∧
    (∀ b : AdminBooking, b.id ≠ bookingId →
      (handleCancelBooking bookingId (.ok ()) prev).count b = prev.count b) ∧
    (∀ b : AdminBooking, b.id = bookingId →
      (handleCancelBooking bookingId (.ok ()) prev).count b = 0) := by
  refine ⟨List.filter_sublist prev, ?_, ?_, ?_⟩
  · intro b hb
    have := (List.mem_filter.mp hb).2
    simpa using this
  · intro b hb
    exact List.count_filter (by simpa using hb)
  · intro b hb
    rw [List.count_eq_zero]
    intro hmem
    have := (List.mem_filter.mp hmem).2
    simp [hb] at this

/-- C9 witness: cancelling id "A" in a two-element list keeps the other
booking with its multiplicity and drops the cancelled one. -/
theorem cancelBooking_success_removes_witness :
    (handleCancelBooking "A" (.ok ())
      [sampleBooking "A" 0 none none none, sampleBooking "B" 1 none none none]).count
      (sampleBooking "B" 1 none none none)
      = ([sampleBooking "A" 0 none none none,
          sampleBooking "B" 1 none none none].count
          (sampleBooking "B" 1 none none none)) ∧
    (handleCancelBooking "A" (.ok ())
      [sampleBooking "A" 0 none none none, sampleBooking "B" 1 none none none]).count
      (sampleBooking "A" 0 none none none) = 0 :=
  ⟨(cancelBooking_success_removes "A"
      [sampleBooking "A" 0 none none none, sampleBooking "B" 1 none none none]).2.2.1
      (sampleBooking "B" 1 none none none) (by decide),
   (cancelBooking_success_removes "A"
      [sampleBooking "A" 0 none none none, sampleBooking "B" 1 none none none]).2.2.2
      (sampleBooking "A" 0 none none none) (by decide)⟩

/-! ### C8: KPI counters -/

theorem foldl_add_eq_sum_map (f : AdminBooking → Int) (l : List AdminBooking) :
    ∀ c : Int, l.foldl (fun s b => s + f b) c = c + (l.map f).sum := by
  induction l with
  | nil => intro c; simp
  | cons a l ih => intro c; simp only [List.foldl_cons, ih, List.map_cons,
      List.sum_cons]; ring

theorem sum_map_filter_eq (p : AdminBooking → Bool) (f : AdminBooking → Int)
    (l : List AdminBooking) :
    ((l.filter p).map f).sum = (l.map (fun b => if p b then f b else 0)).sum := by
  induction l with
  | nil => rfl
  | cons a l ih => cases h : p a <;> simp [List.filter_cons, h, ih]

theorem filter_length_add_filter_not_length (p : AdminBooking → Bool)
    (l : List AdminBooking) :
    (l.filter p).length + (l.filter (fun b => !p b)).length = l.length := by
  have h := (List.filter_append_perm p l).length_eq
  rw [List.length_append] at h
  exact h

/-- C8: the KPI counters are computed from the unfiltered list (they do not
depend on the search term, status filter or sort parameters); the expired
count is total − active and equals the number of non-active bookings; the
today count is the number of bookings created within the current local
calendar day `[todayStart, todayEnd]`; and the active revenue is the sum of
`price_for_period` over exactly the currently-active bookings carrying a
price (every other booking contributes zero). -/
theorem dashboardStats_spec (q q' : String) (sf sf' : StatusFilter)
    (k k' : SortKey) (d d' : SortDir) (now dayStart dayEnd : Int)
    (l : List AdminBooking) :
    dashboardStats q sf k d now dayStart dayEnd l
      = dashboardStats q' sf' k' d' now dayStart dayEnd l ∧
    (dashboardStats q sf k d now dayStart dayEnd l).active +
      (dashboardStats q sf k d now dayStart dayEnd l).expired
      = (dashboardStats q sf k d now dayStart dayEnd l).total ∧
    (dashboardStats q sf k d now dayStart dayEnd l).expired
      = (l.filter (fun b => !isActive now b)).length ∧
    (dashboardStats q sf k d now dayStart dayEnd l).todayCount
      = l.countP (fun b =>
          decide (dayStart ≤ b.created_at ∧ b.created_at ≤ dayEnd)) ∧
    (dashboardStats q sf k d now dayStart dayEnd l).revenueActive
      = (l.map (fun b =>
          if isActive now b && b.price_for_period.isSome
          then b.price_for_period.getD 0 else 0)).sum := by
  refine ⟨rfl, ?_, ?_, ?_, ?_⟩
  · have hle := List.length_filter_le (fun b => isActive now b) l
    simp only [dashboardStats]
    omega
  · have h := filter_length_add_filter_not_length (fun b => isActive now b) l
    simp only [dashboardStats]
    omega
  · simp only [dashboardStats, List.countP_eq_length_filter]
    have hcong : ∀ b ∈ l,
        (decide (dayStart ≤ b.created_at) && decide (b.created_at ≤ dayEnd))
          = decide (dayStart ≤ b.created_at ∧ b.created_at ≤ dayEnd) := by
      intro b _
      by_cases h1 : dayStart ≤ b.created_at <;>
        by_cases h2 : b.created_at ≤ dayEnd <;> simp [h1, h2]
    rw [List.filter_congr hcong]
  · simp only [dashboardStats]
    rw [foldl_add_eq_sum_map (fun b => b.price_for_period.getD 0)]
    rw [sum_map_filter_eq (fun b => isActive now b && b.price_for_period.isSome)
      (fun b => b.price_for_period.getD 0) l]
    simp

/-! ### C10: a booking without validUntil is classified expired everywhere -/

/-- C10: a booking whose `valid_until` is absent is never active: the
"active" filter excludes it, the "expired" filter selects it, it is outside
the revenue-bearing sublist, and prepending it to a list leaves the active
count and active revenue unchanged while raising the expired count by one. -/
theorem missingValidUntil_expired (now dayStart dayEnd : Int) (q : String)
    (sf : StatusFilter) (k : SortKey) (d : SortDir) (b : AdminBooking)
    (l : List AdminBooking) (hvu : b.valid_until = none) :
    isActive now b = false ∧
    (b ∈ l → b ∈ applyStatusFilter .expired now l) ∧
    b ∉ applyStatusFilter .active now l ∧
    b ∉ l.filter (fun x => isActive now x && x.price_for_period.isSome) ∧
    (dashboardStats q sf k d now dayStart dayEnd (b :: l)).active
      = (dashboardStats q sf k d now dayStart dayEnd l).active ∧
    (dashboardStats q sf k d now dayStart dayEnd (b :: l)).expired
      = (dashboardStats q sf k d now dayStart dayEnd l).expired + 1 ∧
    (dashboardStats q sf k d now dayStart dayEnd (b :: l)).revenueActive
      = (dashboardStats q sf k d now dayStart dayEnd l).revenueActive := by
  have hact : isActive now b = false := by simp [isActive, hvu]
  have hfc : List.filter (fun x => isActive now x) (b :: l)
      = List.filter (fun x => isActive now x) l := by
    simp [List.filter_cons, hact]
  have hfr : List.filter (fun x => isActive now x && x.price_for_period.isSome)
      (b :: l)
      = List.filter (fun x => isActive now x && x.price_for_period.isSome) l := by
    have hcond : (isActive now b && b.price_for_period.isSome) = false := by
      rw [hact]
      rfl
    rw [List.filter_cons, hcond]
    simp
  refine ⟨hact, ?_, ?_, ?_, ?_, ?_, ?_⟩
  · intro hb
    simp [applyStatusFilter, List.mem_filter, hb, hact]
  · intro hmem
    have := (List.mem_filter.mp hmem).2
    rw [hact] at this
    exact absurd this (by decide)
  · intro hmem
    have := (List.mem_filter.mp hmem).2
    rw [hact] at this
    simp at this
  · simp only [dashboardStats, hfc]
  · have hle := List.length_filter_le (fun x => isActive now x) l
    simp only [dashboardStats, hfc, List.length_cons]
    omega
  · simp only [dashboardStats, hfr]

/-- C10 witness: concrete instantiation for a booking with absent
`valid_until` carrying a price. -/
theorem missingValidUntil_expired_witness :
    isActive 0 (sampleBooking "W10" 0 none (some 42) none) = false ∧
    (dashboardStats "" .all .created_at .asc 0 0 86399999
      [sampleBooking "W10" 0 none (some 42) none,
       sampleBooking "X" 0 (some 99) (some 7) none]).expired
      = (dashboardStats "" .all .created_at .asc 0 0 86399999
          [sampleBooking "X" 0 (some 99) (some 7) none]).expired + 1 := by
  have h := missingValidUntil_expired 0 0 86399999 "" .all .created_at .asc
    (sampleBooking "W10" 0 none (some 42) none)
    [sampleBooking "X" 0 (some 99) (some 7) none] rfl
  exact ⟨h.1, h.2.2.2.2.2.1⟩

/-! ### C2: the derived booking status ignores the DTO's is_active field -/

/-- Modelled from the spec (§3, “Derived booking status”): `isActive` if
present on the DTO, else `now < validUntil`. -/
def specDerivedStatus (now : Int) (b : AdminBooking) : Bool :=
  match b.is_active with
  | some v => v
  | none =>
    match b.valid_until with
    | some endTime => decide (now < endTime)
    | none => false

/-- C2 counterexample: a booking with `is_active = true` but an expired
`valid_until` — the spec's rule classifies it active, the dashboard's
`isActive` classifies it expired, so the claimed precedence of the
`is_active` field does not hold in the code. -/
theorem derivedStatus_ignores_isActive_cex :
    (sampleBooking "C2" 0 (some 5) none (some true)).is_active = some true ∧
    specDerivedStatus 10 (sampleBooking "C2" 0 (some 5) none (some true)) = true ∧
    isActive 10 (sampleBooking "C2" 0 (some 5) none (some true)) = false := by
  decide

/-- C2 amended: the derived status is computed solely from `valid_until`
and the evaluation instant — any two bookings agreeing on `valid_until`
(whatever their `is_active` fields) get the same derived status, which is
`now < validUntil` when the field is present and `false` when it is absent;
the CSV status column agrees. -/
theorem derivedStatus_amended (now : Int) (b b' : AdminBooking)
    (h : b.valid_until = b'.valid_until) :
    isActive now b = isActive now b' ∧
    (∀ t, b.valid_until = some t → (isActive now b = true ↔ now < t)) ∧
    (b.valid_until = none → isActive now b = false) ∧
    csvStatus now b = csvStatus now b' := by
  have heq : isActive now b = isActive now b' := by
    simp only [isActive, h]
  refine ⟨heq, ?_, ?_, ?_⟩
  · intro t ht
    simp [isActive, ht]
  · intro hn
    simp [isActive, hn]
  · simp only [csvStatus, heq]

/-- C2 amended witness: two bookings sharing `valid_until` but with
opposite `is_active` fields get the same derived status. -/
theorem derivedStatus_amended_witness :
    isActive 3 (sampleBooking "Y" 0 (some 9) none (some false))
      = isActive 3 (sampleBooking "Z" 0 (some 9) none (some true)) ∧
    (isActive 3 (sampleBooking "Y" 0 (some 9) none (some false)) = true ↔
      (3 : Int) < 9) :=
  ⟨(derivedStatus_amended 3 (sampleBooking "Y" 0 (some 9) none (some false))
      (sampleBooking "Z" 0 (some 9) none (some true)) rfl).1,
   (derivedStatus_amended 3 (sampleBooking "Y" 0 (some 9) none (some false))
      (sampleBooking "Z" 0 (some 9) none (some true)) rfl).2.1 9 rfl⟩

/-! ### C3: error-message normalization (status + bounded body prefix) -/

/-- The error message carried by an API outcome (empty string on success). -/
def errMsgOf : Except String String → String
  | .error e => e
  | .ok _ => ""

theorem truncatedBody_length_le (body : String) :
    (truncatedBody body 200).length ≤ 200 := by
  by_cases h : strTake body 200 = ""
  · simp only [truncatedBody, if_pos h]
    norm_num [String.length]
  · simp only [truncatedBody, if_neg h]
    exact List.length_take_le _ _

/-- C3 counterexample: the admin list operation's error message embeds the
whole response body, so no bound on its length exists — the "bounded
prefix" normalization does not hold for every operation. -/
theorem adminError_unbounded_cex :
    ¬ ∃ K : Nat, ∀ body : String,
      (errMsgOf (listBookingsAdmin (some "https://api.example.test")
        (some "tok") { status := 500, body := body }).2).length ≤ K := by
  rintro ⟨K, h⟩
  have hK := h (String.mk (List.replicate (K + 1) 'a'))
  have hmsg : errMsgOf (listBookingsAdmin (some "https://api.example.test")
      (some "tok")
      { status := 500, body := String.mk (List.replicate (K + 1) 'a') }).2
      = "Admin bookings error: " ++ toString (500 : Nat) ++ " - " ++
        String.mk (List.replicate (K + 1) 'a') := rfl
  rw [hmsg] at hK
  simp only [String.length_append] at hK
  have h1 : ("Admin bookings error: ").length = 22 := rfl
  have h2 : (toString (500 : Nat)).length = 3 := rfl
  have h3 : (" - ").length = 3 := rfl
  have h4 : (String.mk (List.replicate (K + 1) 'a')).length = K + 1 := by
    simp [String.length]
  rw [h1, h2, h3, h4] at hK
  omega

/-- C3 amended: every non-2xx response is converted into an error carrying
the numeric status; the *customer* operations (`getMe`,
`getAvailableBoxes`, `createMyBooking`) embed only a bounded prefix of the
body (at most 200 resp. 300 characters plus a fixed frame), while the
*admin* operations (`listBookingsAdmin`, `createBookingAdmin`,
`cancelBookingAdmin`) embed the full, untruncated body. -/
theorem errorNormalization_amended (base tok : String) (s dm : Int)
    (boxId : String) (userName : Option String)
    (p : CreateBookingAdminParams) (bookingId : String) (resp : HttpResponse)
    (hnok : resp.ok = false) :
    (errMsgOf (getMe (some base) (some tok) resp).2).length
      ≤ 18 + (toString resp.status).length + 200 ∧
    (errMsgOf (getAvailableBoxes (some base) (some tok) s dm resp).2).length
      ≤ 14 + (toString resp.status).length + 200 ∧
    (errMsgOf (createMyBooking (some base) (some tok) boxId dm userName
      resp).2).length
      ≤ 22 + (toString resp.status).length + 300 ∧
    (listBookingsAdmin (some base) (some tok) resp).2
      = .error ("Admin bookings error: " ++ toString resp.status ++ " - " ++
        resp.body) ∧
    (createBookingAdmin (some base) (some tok) p resp).2
      = .error ("Admin create booking error: " ++ toString resp.status ++
        " - " ++ resp.body) ∧
    (cancelBookingAdmin (some base) (some tok) bookingId resp).2
      = .error ("Booking cancel error: " ++ toString resp.status ++ " - " ++
        resp.body) := by
  refine ⟨?_, ?_, ?_, ?_, ?_, ?_⟩
  · have hmsg : errMsgOf (getMe (some base) (some tok) resp).2
        = "auth/me error (" ++ toString resp.status ++ "): " ++
          truncatedBody resp.body 200 := by
      simp [getMe, getAuthHeaders, hnok, errMsgOf]
    rw [hmsg]
    simp only [String.length_append]
    have h1 : ("auth/me error (").length = 15 := rfl
    have h2 : ("): ").length = 3 := rfl
    have h3 := truncatedBody_length_le resp.body
    omega
  · have hmsg : errMsgOf (getAvailableBoxes (some base) (some tok) s dm resp).2
        = "API error (" ++ toString resp.status ++ "): " ++
          truncatedBody resp.body 200 := by
      simp [getAvailableBoxes, hnok, errMsgOf]
    rw [hmsg]
    simp only [String.length_append]
    have h1 : ("API error (").length = 11 := rfl
    have h2 : ("): ").length = 3 := rfl
    have h3 := truncatedBody_length_le resp.body
    omega
  · have hmsg : errMsgOf (createMyBooking (some base) (some tok) boxId dm
        userName resp).2
        = "Booking API error: " ++ toString resp.status ++ " - " ++
          strTake resp.body 300 := by
      simp [createMyBooking, getAuthHeaders, hnok, errMsgOf]
    rw [hmsg]
    simp only [String.length_append]
    have h1 : ("Booking API error: ").length = 19 := rfl
    have h2 : (" - ").length = 3 := rfl
    have h3 : (strTake resp.body 300).length ≤ 300 := List.length_take_le _ _
    omega
  · simp [listBookingsAdmin, getAuthHeaders, hnok]
  · simp [createBookingAdmin, getAuthHeaders, hnok]
  · simp [cancelBookingAdmin, getAuthHeaders, hnok]

/-- C3 amended witness: concrete instantiation at a 500 response with a
short body. -/
theorem errorNormalization_amended_witness :
    HttpResponse.ok { status := 500, body := "oops" } = false ∧
    (listBookingsAdmin (some "b") (some "t")
      { status := 500, body := "oops" }).2
      = .error ("Admin bookings error: " ++ toString (500 : Nat) ++ " - " ++
        "oops") :=
  ⟨rfl,
   (errorNormalization_amended "b" "t" 0 60 "box" none
     { user_email := "e", box_id := "x", duration_minutes := 60,
       user_name := none } "id" { status := 500, body := "oops" }
     rfl).2.2.2.1⟩

/-! ### C4: cancel failure surfaces a generic message; list untouched on
failure -/

/-- Modelled from the spec (§4.2 operation table and §8 scenario): the
distinct message the caller is claimed to surface on HTTP 404. -/
def specBookingNotFoundMsg : String := "booking not found"

/-- C4 counterexample: on HTTP 404 the admin cancel flow surfaces the
generic `Booking cancel error: 404 - …` message, not the distinct
"booking not found" message the claim prescribes. -/
theorem cancel404_generic_cex :
    (adminCancelFlow (some "https://api.example.test") (some "tok") "B-404"
      { status := 404, body := "Not Found" } []).2
      = some "Booking cancel error: 404 - Not Found" ∧
    "Booking cancel error: 404 - Not Found" ≠ specBookingNotFoundMsg := by
  constructor
  · rfl
  · decide

/-- C4 amended: on any non-2xx response the cancel flow surfaces the single
generic message `Booking cancel error: <status> - <body>` (the same
template for 404, 403 and all other statuses) and leaves the in-memory
bookings list unchanged; on a 2xx response it surfaces no error and removes
exactly the bookings with the cancelled id. -/
theorem cancelFlow_amended (base tok bookingId : String)
    (resp : HttpResponse) (prev : List AdminBooking) :
    (resp.ok = false →
      (adminCancelFlow (some base) (some tok) bookingId resp prev).1 = prev ∧
      (adminCancelFlow (some base) (some tok) bookingId resp prev).2
        = some ("Booking cancel error: " ++ toString resp.status ++ " - " ++
          resp.body)) ∧
    (resp.ok = true →
      (adminCancelFlow (some base) (some tok) bookingId resp prev).1
        = prev.filter (fun b => !(b.id == bookingId)) ∧
      (adminCancelFlow (some base) (some tok) bookingId resp prev).2
        = none) := by
  constructor
  · intro hnok
    constructor
    · simp [adminCancelFlow, cancelBookingAdmin, getAuthHeaders, hnok,
        handleCancelBooking]
    · simp [adminCancelFlow, cancelBookingAdmin, getAuthHeaders, hnok]
  · intro hok
    constructor
    · simp [adminCancelFlow, cancelBookingAdmin, getAuthHeaders, hok,
        handleCancelBooking]
    · simp [adminCancelFlow, cancelBookingAdmin, getAuthHeaders, hok]

/-- C4 amended witness: a 404 leaves a one-element list unchanged and
surfaces the generic message; a 204 removes the booking. -/
theorem cancelFlow_amended_witness :
    (adminCancelFlow (some "b") (some "t") "A"
      { status := 404, body := "x" }
      [sampleBooking "A" 0 none none none]).1
      = [sampleBooking "A" 0 none none none] ∧
    (adminCancelFlow (some "b") (some "t") "A"
      { status := 204, body := "" }
      [sampleBooking "A" 0 none none none]).1
      = List.filter (fun b => !(b.id == "A"))
          [sampleBooking "A" 0 none none none] :=
  ⟨((cancelFlow_amended "b" "t" "A" { status := 404, body := "x" }
      [sampleBooking "A" 0 none none none]).1 rfl).1,
   ((cancelFlow_amended "b" "t" "A" { status := 204, body := "" }
      [sampleBooking "A" 0 none none none]).2 rfl).1⟩

/-! ### C6: the dashboard sort is stable, idempotent, and direction-reversing
on strictly ordered pairs -/

theorem orderedInsert_congr {α : Type} (r r' : α → α → Prop)
    [DecidableRel r] [DecidableRel r'] (a : α) (s : List α)
    (h : ∀ b ∈ s, (r a b ↔ r' a b)) :
    List.orderedInsert r a s = List.orderedInsert r' a s := by
  induction s with
  | nil => rfl
  | cons b bs ih =>
    simp only [List.orderedInsert]
    by_cases hr : r a b
    · rw [if_pos hr, if_pos ((h b (List.mem_cons_self b bs)).mp hr)]
    · rw [if_neg hr,
        if_neg (fun hc => hr ((h b (List.mem_cons_self b bs)).mpr hc)),
        ih (fun c hc => h c (List.mem_cons_of_mem b hc))]

theorem insertionSort_congr {α : Type} (r r' : α → α → Prop)
    [DecidableRel r] [DecidableRel r'] (l : List α)
    (h : ∀ a ∈ l, ∀ b ∈ l, (r a b ↔ r' a b)) :
    List.insertionSort r l = List.insertionSort r' l := by
  induction l with
  | nil => rfl
  | cons a as ih =>
    simp only [List.insertionSort]
    rw [ih (fun x hx y hy =>
      h x (List.mem_cons_of_mem a hx) y (List.mem_cons_of_mem a hy))]
    exact orderedInsert_congr r r' a (List.insertionSort r' as)
      (fun b hb => h a (List.mem_cons_self a as) b
        (List.mem_cons_of_mem a ((List.mem_insertionSort r').mp hb)))

theorem pair_sublist_of_pairwise {α : Type} {P : α → α → Prop} {l : List α}
    {a b : α} (hP : List.Pairwise P l) (ha : a ∈ l) (hb : b ∈ l)
    (hab : ¬ P b a) (hrefl : P a a) : List.Sublist [a, b] l := by
  induction l with
  | nil => cases ha
  | cons c cs ih =>
    rcases List.pairwise_cons.mp hP with ⟨hc, hcs⟩
    rcases List.mem_cons.mp ha with hac | hacs
    · rcases List.mem_cons.mp hb with hbc | hbcs
      · subst hac
        subst hbc
        exact absurd hrefl hab
      · subst hac
        exact List.Sublist.cons₂ a (List.singleton_sublist.mpr hbcs)
    · rcases List.mem_cons.mp hb with hbc | hbcs
      · subst hbc
        exact absurd (hc a hacs) hab
      · exact List.Sublist.cons c (ih hcs hacs hbcs)

/-- The total preorder induced on bookings by a key function. -/
def keyRel {κ : Type} [LinearOrder κ] (f : AdminBooking → κ)
    (a b : AdminBooking) : Prop := f a ≤ f b

instance {κ : Type} [LinearOrder κ] (f : AdminBooking → κ) :
    DecidableRel (keyRel f) :=
  fun a b => inferInstanceAs (Decidable (f a ≤ f b))

instance {κ : Type} [LinearOrder κ] (f : AdminBooking → κ) :
    IsTotal AdminBooking (keyRel f) := ⟨fun a b => le_total (f a) (f b)⟩

instance {κ : Type} [LinearOrder κ] (f : AdminBooking → κ) :
    IsTrans AdminBooking (keyRel f) := ⟨fun _ _ _ => le_trans⟩

theorem bookingLe_asc_iff {κ : Type} [LinearOrder κ] (f : AdminBooking → κ)
    (k : SortKey) (a b : AdminBooking)
    (hab : keyIsLt k a b = decide (f a < f b))
    (hba : keyIsLt k b a = decide (f b < f a)) :
    (bookingLe k .asc a b ↔ keyRel f a b) := by
  unfold bookingLe bookingCompare keyRel
  rw [hab, hba]
  by_cases h1 : f a < f b
  · rw [if_pos (by simpa using h1)]
    exact ⟨fun _ => le_of_lt h1, fun _ => by decide⟩
  · rw [if_neg (by simpa using h1)]
    by_cases h2 : f b < f a
    · rw [if_pos (by simpa using h2)]
      exact ⟨fun hc => absurd hc (by decide),
        fun hle => absurd h2 (not_lt.mpr hle)⟩
    · rw [if_neg (by simpa using h2)]
      exact ⟨fun _ => le_of_not_lt h2, fun _ => by decide⟩

theorem bookingLe_desc_iff {κ : Type} [LinearOrder κ] (f : AdminBooking → κ)
    (k : SortKey) (a b : AdminBooking)
    (hab : keyIsLt k a b = decide (f a < f b))
    (hba : keyIsLt k b a = decide (f b < f a)) :
    (bookingLe k .desc a b ↔ f b ≤ f a) := by
  unfold bookingLe bookingCompare
  rw [hab, hba]
  by_cases h1 : f a < f b
  · rw [if_pos (by simpa using h1)]
    exact ⟨fun hc => absurd hc (by decide),
      fun hle => absurd h1 (not_lt.mpr hle)⟩
  · rw [if_neg (by simpa using h1)]
    by_cases h2 : f b < f a
    · rw [if_pos (by simpa using h2)]
      exact ⟨fun _ => le_of_lt h2, fun _ => by decide⟩
    · rw [if_neg (by simpa using h2)]
      exact ⟨fun _ => le_of_not_lt h1, fun _ => by decide⟩

theorem sortBookings_correct_of_key {κ : Type} [LinearOrder κ]
    (f : AdminBooking → κ) (k : SortKey) (l : List AdminBooking)
    (hlt : ∀ a ∈ l, ∀ b ∈ l, keyIsLt k a b = decide (f a < f b)) :
    (∀ d x y, List.Sublist [x, y] l → bookingCompare k d x y = 0 →
      List.Sublist [x, y] (sortBookings k d l)) ∧
    (∀ d, sortBookings k d (sortBookings k d l) = sortBookings k d l) ∧
    (∀ x y, x ∈ l → y ∈ l → keyIsLt k x y = true →
      List.Sublist [x, y] (sortBookings k .asc l) ∧
      List.Sublist [y, x] (sortBookings k .desc l)) := by
  have hiffA : ∀ a ∈ l, ∀ b ∈ l, (bookingLe k .asc a b ↔ keyRel f a b) :=
    fun a ha b hb => bookingLe_asc_iff f k a b (hlt a ha b hb) (hlt b hb a ha)
  have hiffD : ∀ a ∈ l, ∀ b ∈ l,
      (bookingLe k .desc a b ↔ keyRel (fun x => OrderDual.toDual (f x)) a b) :=
    fun a ha b hb =>
      (bookingLe_desc_iff f k a b (hlt a ha b hb) (hlt b hb a ha)).trans
        OrderDual.toDual_le_toDual.symm
  have hcongA : sortBookings k .asc l = List.insertionSort (keyRel f) l :=
    insertionSort_congr _ _ l hiffA
  have hcongD : sortBookings k .desc l
      = List.insertionSort (keyRel (fun x => OrderDual.toDual (f x))) l :=
    insertionSort_congr _ _ l hiffD
  refine ⟨?_, ?_, ?_⟩
  · intro d x y hsub hcomp
    have hx : x ∈ l := hsub.subset (by simp)
    have hy : y ∈ l := hsub.subset (by simp)
    have hxy : keyIsLt k x y = false := by
      by_contra hne
      simp only [Bool.not_eq_false] at hne
      unfold bookingCompare at hcomp
      rw [hne] at hcomp
      cases d <;> simp at hcomp
    have hyx : keyIsLt k y x = false := by
      by_contra hne
      simp only [Bool.not_eq_false] at hne
      unfold bookingCompare at hcomp
      rw [hxy, hne] at hcomp
      cases d <;> simp at hcomp
    have h1 := hlt x hx y hy
    have h2 := hlt y hy x hx
    rw [hxy] at h1
    rw [hyx] at h2
    have hnlt1 : ¬ f x < f y := by simpa using h1.symm
    have hnlt2 : ¬ f y < f x := by simpa using h2.symm
    have hfeq : f x = f y := le_antisymm (le_of_not_lt hnlt2) (le_of_not_lt hnlt1)
    cases d
    · rw [hcongA]
      exact List.pair_sublist_insertionSort (le_of_eq hfeq) hsub
    · rw [hcongD]
      exact List.pair_sublist_insertionSort
        (OrderDual.toDual_le_toDual.mpr (le_of_eq hfeq.symm)) hsub
  · intro d
    have hmemA : ∀ a ∈ List.insertionSort (keyRel f) l, a ∈ l := fun a ha =>
      (List.mem_insertionSort (keyRel f)).mp ha
    have hmemD : ∀ a ∈ List.insertionSort
        (keyRel (fun x => OrderDual.toDual (f x))) l, a ∈ l := fun a ha =>
      (List.mem_insertionSort _).mp ha
    cases d
    · have hcongA2 : sortBookings k .asc (List.insertionSort (keyRel f) l)
          = List.insertionSort (keyRel f) (List.insertionSort (keyRel f) l) :=
        insertionSort_congr _ _ _
          (fun a ha b hb => hiffA a (hmemA a ha) b (hmemA b hb))
      rw [hcongA, hcongA2]
      exact (List.sorted_insertionSort (keyRel f) l).insertionSort_eq
    · have hcongD2 : sortBookings k .desc
          (List.insertionSort (keyRel (fun x => OrderDual.toDual (f x))) l)
          = List.insertionSort (keyRel (fun x => OrderDual.toDual (f x)))
            (List.insertionSort (keyRel (fun x => OrderDual.toDual (f x))) l) :=
        insertionSort_congr _ _ _
          (fun a ha b hb => hiffD a (hmemD a ha) b (hmemD b hb))
      rw [hcongD, hcongD2]
      exact (List.sorted_insertionSort
        (keyRel (fun x => OrderDual.toDual (f x))) l).insertionSort_eq
  · intro x y hx hy hlt_xy
    have hflt : f x < f y := by
      have h1 := hlt x hx y hy
      rw [hlt_xy] at h1
      exact of_decide_eq_true h1.symm
    constructor
    · rw [hcongA]
      exact pair_sublist_of_pairwise
        (List.sorted_insertionSort (keyRel f) l)
        ((List.mem_insertionSort _).mpr hx)
        ((List.mem_insertionSort _).mpr hy)
        (not_le.mpr hflt)
        (le_refl (f x))
    · rw [hcongD]
      exact pair_sublist_of_pairwise
        (List.sorted_insertionSort (keyRel (fun x => OrderDual.toDual (f x))) l)
        ((List.mem_insertionSort _).mpr hy)
        ((List.mem_insertionSort _).mpr hx)
        (fun hc => absurd (OrderDual.toDual_le_toDual.mp hc) (not_le.mpr hflt))
        (le_refl _)

/-- C6: for every sort key and direction (for the `valid_until` key,
restricted to lists where every `valid_until` parses — a missing value
compares as `NaN`, making the comparator inconsistent and the ECMAScript
sort order unspecified): two elements comparing equal retain their relative
order (stability), sorting twice yields the identical list, and flipping
the direction exactly reverses the relative order of any two elements that
compare strictly under the sort key. -/
theorem dashboardSort_stable_spec (k : SortKey) (l : List AdminBooking)
    (hk : k = SortKey.valid_until → ∀ b ∈ l, b.valid_until.isSome = true) :
    (∀ d x y, List.Sublist [x, y] l → bookingCompare k d x y = 0 →
      List.Sublist [x, y] (sortBookings k d l)) ∧
    (∀ d, sortBookings k d (sortBookings k d l) = sortBookings k d l) ∧
    (∀ x y, x ∈ l → y ∈ l → keyIsLt k x y = true →
      List.Sublist [x, y] (sortBookings k .asc l) ∧
      List.Sublist [y, x] (sortBookings k .desc l)) := by
  cases k with
  | created_at =>
    refine sortBookings_correct_of_key (fun b => b.created_at) _ l ?_
    intro a _ b _
    by_cases h : a.created_at < b.created_at <;> simp [keyIsLt, h]
  | valid_until =>
    refine sortBookings_correct_of_key (fun b => b.valid_until.getD 0) _ l ?_
    intro a ha b hb
    rcases Option.isSome_iff_exists.mp (hk rfl a ha) with ⟨va, hva⟩
    rcases Option.isSome_iff_exists.mp (hk rfl b hb) with ⟨vb, hvb⟩
    by_cases h : va < vb <;> simp [keyIsLt, hva, hvb, h]
  | box =>
    refine sortBookings_correct_of_key boxKey _ l ?_
    intro a _ b _
    by_cases h : boxKey a < boxKey b <;> simp [keyIsLt, h]
  | email =>
    refine sortBookings_correct_of_key emailKey _ l ?_
    intro a _ b _
    by_cases h : emailKey a < emailKey b <;> simp [keyIsLt, h]
  | price =>
    refine sortBookings_correct_of_key priceKey _ l ?_
    intro a _ b _
    by_cases h : priceKey a < priceKey b <;> simp [keyIsLt, h]

/-- C6 witness: two bookings with identical creation time keep their
original relative order under a descending creation-time sort. -/
theorem dashboardSort_stable_spec_witness :
    List.Sublist
      [sampleBooking "S1" 5 none none none, sampleBooking "S2" 5 none none none]
      (sortBookings .created_at .desc
        [sampleBooking "S1" 5 none none none,
         sampleBooking "S2" 5 none none none]) :=
  (dashboardSort_stable_spec .created_at
    [sampleBooking "S1" 5 none none none, sampleBooking "S2" 5 none none none]
    (fun h => absurd h (by decide))).1 .desc
    (sampleBooking "S1" 5 none none none) (sampleBooking "S2" 5 none none none)
    (List.Sublist.refl _) (by decide)

end SelfStorage
